import Mathlib

/-!
Verification of the SwimrankingsScraper core (rate-limited cached fetch layer
and tolerant HTML-to-record extraction), shallowly embedded from the Python
sources in `src/swimrankingsscraper/`.

Conventions of the embedding:
* Python exceptions are modelled by `Except PyErr`; an exception caught by the
  source is resolved inside the corresponding definition, an uncaught one is
  returned as `Except.error`.
* Wall-clock timestamps and durations are rationals (`ℚ`); machine floats of
  the source are modelled exactly, so `time.time()` values are opaque rational
  parameters and float arithmetic is rational arithmetic.
* Parsed HTML documents (`BeautifulSoup` trees built from `lxml`) are modelled
  by the `Node`/`NodeList` mutual inductive; the HTML parser itself is an
  assumed primitive, so documents appear as values of that type.
* Strings are processed at the level of `List Char`, with structural-recursive
  helpers standing in for the Python `str` / `urllib` / `datetime.strptime`
  primitives they model.
-/

namespace Swim

/-- Python exception kinds that occur in the scraper's extraction code paths. -/
inductive PyErr where
  | attributeError
  | valueError
  | keyError
  | indexError
  | typeError
deriving DecidableEq, Repr

/-- Scalar values stored in a result record (Python dict values in the source:
strings, ints, and floats; floats are modelled as rationals). -/
inductive Value where
  | str : String → Value
  | int : Int → Value
  | rat : ℚ → Value
deriving DecidableEq, Repr

/-- A result record: the Python dict appended to `data` by each listing
operation, modelled as an association list in insertion order. -/
abbrev Record := List (String × Value)

/-! ## Character-list utilities (models of Python `str` primitives) -/

/-- Whitespace test used by `strip`; the fixtures only use ASCII whitespace. -/
def isSpaceChar (c : Char) : Bool :=
  c = ' ' || c = '\t' || c = '\n' || c = '\r'

/-- Model of Python `str.strip()` on a character list. -/
def trimL (cs : List Char) : List Char :=
  ((cs.dropWhile isSpaceChar).reverse.dropWhile isSpaceChar).reverse

/-- Split a character list on a separator character; mirrors Python
`str.split(sep)`: the result is never empty and has one part per separator
occurrence plus one. -/
def splitOnChar (sep : Char) : List Char → List (List Char)
  | [] => [[]]
  | c :: rest =>
    let r := splitOnChar sep rest
    if c = sep then [] :: r
    else
      match r with
      | [] => [[c]]
      | x :: xs => (c :: x) :: xs

/-- Characters strictly after the first occurrence of `sep` (empty when `sep`
does not occur). -/
def afterFirst (sep : Char) : List Char → List Char
  | [] => []
  | c :: rest => if c = sep then rest else afterFirst sep rest

/-- Model of Python substring containment (`pat in s`). -/
def containsSub (pat : List Char) : List Char → Bool
  | [] => pat.isEmpty
  | c :: rest => pat.isPrefixOf (c :: rest) || containsSub pat rest

/-- Fuel-driven worker for `pyReplace`; the fuel is the length of the scanned
list, which bounds the number of scanning steps. -/
def replaceFuel (pat rep : List Char) : Nat → List Char → List Char
  | _, [] => []
  | 0, cs => cs
  | fuel + 1, c :: rest =>
    if pat.isPrefixOf (c :: rest) then rep ++ replaceFuel pat rep fuel ((c :: rest).drop pat.length)
    else c :: replaceFuel pat rep fuel rest

/-- Model of Python `str.replace(pat, rep)` for a non-empty pattern (the source
only replaces the non-empty literals `<b>` and `</b>`). -/
def pyReplace (s pat rep : String) : String :=
  if pat.data.isEmpty then s else String.mk (replaceFuel pat.data rep.data s.data.length s.data)

/-- Numeric value of a decimal digit character. -/
def digitVal (c : Char) : Nat := c.toNat - 48

/-- Value of a digit string read left to right (no sign, no validation). -/
def digitsVal (cs : List Char) : Nat :=
  cs.foldl (fun a c => a * 10 + digitVal c) 0

/-- Parse a bare decimal number of at most `maxDigits` digits and value at most
`maxVal`; models one numeric field of `datetime.strptime`. -/
def parseNum (cs : List Char) (maxDigits maxVal : Nat) : Option Nat :=
  if cs.length = 0 then none
  else if maxDigits < cs.length then none
  else if !cs.all Char.isDigit then none
  else
    let v := digitsVal cs
    if v ≤ maxVal then some v else none

/-- Model of Python `int(s)`: optional surrounding whitespace, optional sign,
then decimal digits; anything else raises `ValueError`. -/
def pyInt (cs : List Char) : Except PyErr Int :=
  let t := trimL cs
  match t with
  | '-' :: rest =>
    if rest.isEmpty || !rest.all Char.isDigit then .error .valueError
    else .ok (-(digitsVal rest : Int))
  | '+' :: rest =>
    if rest.isEmpty || !rest.all Char.isDigit then .error .valueError
    else .ok (digitsVal rest : Int)
  | _ =>
    if t.isEmpty || !t.all Char.isDigit then .error .valueError
    else .ok (digitsVal t : Int)

/-! ## URL query parsing (model of `urllib.parse.urlparse` / `parse_qs`)

The source always uses the composite `parse_qs(urlparse(url).query)[key][0]`.
`urlparse` keeps the substring after the first `?` of the pre-fragment part as
the query; `parse_qs` splits it on `&`, keeps only segments that contain `=`
with a non-empty value (its default drops blank values), and `[key][0]` picks
the value of the first occurrence of `key`, raising `KeyError` when the key is
absent. Percent-decoding is not modelled; the scraped URLs contain none. -/

/-- Query component of a URL, as by `urlparse(url).query`. -/
def urlQuery (url : String) : List Char :=
  afterFirst '?' (url.data.takeWhile (fun c => !(c = '#')))

/-- Association list of query parameters in page order, as by `parse_qs` with
default options (each key's values collected in order; we only need the first,
so pairs suffice). -/
def parseQs (q : List Char) : List (List Char × List Char) :=
  (splitOnChar '&' q).filterMap (fun seg =>
    if seg.contains '=' then
      let v := afterFirst '=' seg
      if v.isEmpty then none
      else some (seg.takeWhile (fun c => !(c = '=')), v)
    else none)

/-- Model of `parse_qs(urlparse(url).query)[key][0]`. -/
def parse_qs_first (url : String) (key : String) : Except PyErr (List Char) :=
  match (parseQs (urlQuery url)).find? (fun p => p.1 == key.data) with
  | some p => .ok p.2
  | none => .error .keyError

/-! ## convert_time (src/swimrankingsscraper/utils.py)

`convert_time` strips one trailing `'M'`, counts colons to choose between the
`strptime` formats `%H:%M:%S.%f`, `%M:%S.%f` and `%S.%f`, and returns
`second + minute*60 + hour*3600 + microsecond/1000000`. `strptime` numeric
fields accept 1–2 digits (`%H` ≤ 23, `%M` ≤ 59, `%S` ≤ 61) and `%f` accepts
1–6 digits, scaled to microseconds as if right-padded to 6 digits; the whole
string must be consumed. `timeMicros` computes the total in integer
microseconds so that the parse is kernel-computable; the rational division by
10^6 happens once at the end, exactly as in the source's float arithmetic. -/

/-- Parse `SS.ffffff` (the `%S.%f` tail of every format) to microseconds. -/
def secFracMicros (cs : List Char) : Except PyErr Nat :=
  match splitOnChar '.' cs with
  | [sec, frac] =>
    match parseNum sec 2 61, parseNum frac 6 999999 with
    | some s, some f => .ok (s * 1000000 + f * 10 ^ (6 - frac.length))
    | _, _ => .error .valueError
  | _ => .error .valueError

/-- Body of `convert_time` after the marker strip: choose the format by the
colon count and parse, returning total microseconds. -/
def timeBody (cs : List Char) : Except PyErr Nat :=
  match cs.count ':' with
  | 2 =>
    match splitOnChar ':' cs with
    | [h, m, r] =>
      match parseNum h 2 23, parseNum m 2 59, secFracMicros r with
      | some hv, some mv, .ok sf => .ok ((hv * 3600 + mv * 60) * 1000000 + sf)
      | _, _, _ => .error .valueError
    | _ => .error .valueError
  | 1 =>
    match splitOnChar ':' cs with
    | [m, r] =>
      match parseNum m 2 59, secFracMicros r with
      | some mv, .ok sf => .ok (mv * 60 * 1000000 + sf)
      | _, _ => .error .valueError
    | _ => .error .valueError
  | _ => secFracMicros cs

/-- Total microseconds of a swim-time string: `time_str[-1]` raises
`IndexError` on an empty string, a trailing `'M'` is dropped, then the
`strptime` parse runs. -/
def timeMicros (cs : List Char) : Except PyErr Nat :=
  match cs.getLast? with
  | none => .error .indexError
  | some c => timeBody (if c = 'M' then cs.dropLast else cs)

/-- Character-list version of `convert_time`, in fractional seconds. -/
def convertTimeL (cs : List Char) : Except PyErr ℚ :=
  match timeMicros cs with
  | .error e => .error e
  | .ok n => .ok ((n : ℚ) / 1000000)

/-- Model of `convert_time` from `utils.py`. -/
def convert_time (s : String) : Except PyErr ℚ :=
  convertTimeL s.data

/-! ## Renderings of the spec's `[[H:]M:]S.ms` time-string shapes

These definitions follow the spec's description of the accepted strings (hour
unpadded as rendered by the site, minutes/seconds two digits, milliseconds
three digits); they exist to state the round-trip property of claim C8. -/

/-- Decimal digit character. -/
def digitChar : Nat → Char
  | 0 => '0'
  | 1 => '1'
  | 2 => '2'
  | 3 => '3'
  | 4 => '4'
  | 5 => '5'
  | 6 => '6'
  | 7 => '7'
  | 8 => '8'
  | _ => '9'

/-- Render a number below 100 without zero-padding (one or two digits). -/
def twoDigits (n : Nat) : List Char :=
  if n < 10 then [digitChar n] else [digitChar (n / 10), digitChar (n % 10)]

/-- Render a number below 100 zero-padded to two digits. -/
def pad2 (n : Nat) : List Char := [digitChar (n / 10), digitChar (n % 10)]

/-- Render a number below 1000 zero-padded to three digits. -/
def pad3 (n : Nat) : List Char :=
  [digitChar (n / 100), digitChar (n / 10 % 10), digitChar (n % 10)]

/-- The spec's `H:MM:SS.mmm` time-string shape. -/
def renderHMS (h m s ms : Nat) : List Char :=
  twoDigits h ++ ':' :: (pad2 m ++ ':' :: (pad2 s ++ '.' :: pad3 ms))

/-- The spec's `MM:SS.mmm` time-string shape. -/
def renderMS (m s ms : Nat) : List Char :=
  pad2 m ++ ':' :: (pad2 s ++ '.' :: pad3 ms)

/-- The spec's colon-free `SS.mmm` time-string shape (seconds only). -/
def renderS (s ms : Nat) : List Char :=
  pad2 s ++ '.' :: pad3 ms

/-! ## Parsed HTML documents

`Node` models the BeautifulSoup tree: a node is a string or an element with a
tag name, attributes, and children. `NodeList` is an inlined list of children
so that all traversals are mutually structural (hence kernel-computable). -/

mutual
inductive Node where
  | text : String → Node
  | elem : String → List (String × String) → NodeList → Node
inductive NodeList where
  | nil : NodeList
  | cons : Node → NodeList → NodeList
end

/-- Build a `NodeList` from a `List Node` (fixture construction helper). -/
def nl : List Node → NodeList :=
  fun l => l.foldr .cons .nil

mutual
/-- Concatenation of all descendant strings, each stripped: the model of
BeautifulSoup `get_text(strip=True)` (which joins the stripped strings with an
empty separator). -/
def getTextN : Node → List Char
  | .text s => trimL s.data
  | .elem _ _ cs => getTextL cs
/-- List version of `getTextN`. -/
def getTextL : NodeList → List Char
  | .nil => []
  | .cons n r => getTextN n ++ getTextL r
end

/-- String-valued `get_text(strip=True)`. -/
def get_text (n : Node) : String := String.mk (getTextN n)

mutual
/-- All descendants of a node satisfying `p`, in document (pre-)order: the
model of BeautifulSoup `find_all` (which searches descendants, not the node
itself). -/
def findAllN (p : Node → Bool) : Node → List Node
  | .text _ => []
  | .elem _ _ cs => findAllL p cs
/-- List version of `findAllN`: each node is listed before its descendants. -/
def findAllL (p : Node → Bool) : NodeList → List Node
  | .nil => []
  | .cons c rest => (if p c then [c] else []) ++ (findAllN p c ++ findAllL p rest)
end

/-- BeautifulSoup class matching: the tag's `class` attribute is split on
whitespace and a filter value (or any member of a filter list) must be among
the resulting classes. -/
def classMatch (want : List String) (attrs : List (String × String)) : Bool :=
  match attrs.lookup "class" with
  | none => false
  | some cv => (splitOnChar ' ' cv.data).any (fun seg => want.any (fun w => w.data == seg))

/-- Tag filter used by `find`/`find_all` calls of the source: a tag name plus
an optional `class` filter (a single class or a list of alternatives). -/
def tagMatch (name : String) (cls : Option (List String)) : Node → Bool
  | .text _ => false
  | .elem nm attrs _ =>
    nm == name && (match cls with
      | none => true
      | some want => classMatch want attrs)

/-- Model of `node.find_all(name, attrs)`. -/
def find_all (n : Node) (name : String) (cls : Option (List String)) : List Node :=
  findAllN (tagMatch name cls) n

/-- Model of `node.find(name, attrs)`: the first `find_all` hit, or `None`. -/
def find (n : Node) (name : String) (cls : Option (List String)) : Option Node :=
  (find_all n name cls).head?

/-- Model of BeautifulSoup `tag[key]`: `KeyError` when the attribute is
missing, `TypeError` when subscripting a string node. -/
def getAttr (n : Node) (key : String) : Except PyErr String :=
  match n with
  | .text _ => .error .typeError
  | .elem _ attrs _ =>
    match attrs.lookup key with
    | some v => .ok v
    | none => .error .keyError

/-- Whether the parsed document has a `body` element
(`self.page_content.find('body') is None` is the source's emptiness check). -/
def has_body (doc : Node) : Bool :=
  (find doc "body" none).isSome

/-! ## Athlete.search_athletes row extraction (athlete.py lines 105–150)

Each loop iteration either appends one record, skips the row by an explicit
`continue` (modelled `.ok none`), or raises; the `except (AttributeError,
ValueError, KeyError, IndexError)` around the body turns those four exception
kinds into a skip as well, and would let any other kind escape. -/

/-- Value of `date_cell.get_text(strip=True) if date_cell else ''` (and the
analogous `code`/`club` cells). -/
def optText (o : Option Node) : String :=
  match o with
  | some c => get_text c
  | none => ""

/-- Value of `'m' if gender_img and 'gender1.png' in gender_img['src'] else 'f'`:
a missing image yields `'f'`; an image without `src` raises `KeyError`. -/
def genderOf (o : Option Node) : Except PyErr String :=
  match o with
  | none => .ok "f"
  | some img =>
    match getAttr img "src" with
    | .error e => .error e
    | .ok src => .ok (if containsSub "gender1.png".data src.data then "m" else "f")

/-- One iteration of the `search_athletes` row loop body (without the
surrounding `except`): `.ok none` is an explicit `continue`. -/
def extractSearchRow (row : Node) : Except PyErr (Option Record) :=
  match find row "td" (some ["name"]) with
  | none => .ok none
  | some nameCell =>
    match find nameCell "a" none with
    | none => .ok none
    | some nameLink =>
      let athleteName := pyReplace (pyReplace (get_text nameLink) "<b>" "") "</b>" ""
      match getAttr nameLink "href" with
      | .error e => .error e
      | .ok athleteUrl =>
        match parse_qs_first athleteUrl "athleteId" with
        | .error e => .error e
        | .ok idStr =>
          match pyInt idStr with
          | .error e => .error e
          | .ok athleteId =>
            let birthYear := optText (find row "td" (some ["date"]))
            match genderOf (find row "img" none) with
            | .error e => .error e
            | .ok gender =>
              let countryCode := optText (find row "td" (some ["code"]))
              let clubName := optText (find row "td" (some ["club"]))
              .ok (some [("athlete_id", .int athleteId), ("name", .str athleteName),
                         ("birth_year", .str birthYear), ("gender", .str gender),
                         ("country_code", .str countryCode), ("club_name", .str clubName)])

/-- Exception kinds caught by the row loop of `search_athletes`. -/
def caughtInSearch (e : PyErr) : Bool :=
  match e with
  | .attributeError => true
  | .valueError => true
  | .keyError => true
  | .indexError => true
  | .typeError => false

/-- The `search_athletes` row loop: appends records in row order, skips a row
on `continue` or on one of the four caught exception kinds, and propagates any
other exception. -/
def searchLoop : List Node → Except PyErr (List Record)
  | [] => .ok []
  | row :: rest =>
    match extractSearchRow row with
    | .ok none => searchLoop rest
    | .ok (some r) =>
      match searchLoop rest with
      | .ok tail => .ok (r :: tail)
      | .error e => .error e
    | .error e => if caughtInSearch e then searchLoop rest else .error e

/-- Skip-or-keep outcome of one `search_athletes` row, used to state the
order-preserving filter property of `searchLoop`. -/
def searchRowOk (row : Node) : Option Record :=
  match extractSearchRow row with
  | .ok (some r) => some r
  | _ => none

/-- Model of `Athlete.search_athletes` from the parsed page onward: `soup` is
the value `_get_page_content` returned (`none` when no document is available,
in which case `soup.find` raises `AttributeError`, which the source catches
and turns into `[]`; a present but table-less document hits the explicit
`if not table: return []`). -/
def search_athletes (soup : Option Node) : Except PyErr (List Record) :=
  match soup with
  | none => .ok []
  | some doc =>
    match find doc "table" (some ["athleteSearch"]) with
    | none => .ok []
    | some table =>
      searchLoop (findAllN (tagMatch "tr" (some ["athleteSearch0", "athleteSearch1"])) table)

/-! ## Athlete.list_personal_bests row extraction (athlete.py lines 152–178)

The row loop has no exception handling at all: any failing field lookup
raises out of `list_personal_bests` and aborts the whole batch. Attribute
access on a `None` returned by `find` raises `AttributeError`; subscripting
such a `None` raises `TypeError`. -/

/-- One iteration of the `list_personal_bests` row loop body. -/
def extractPbRow (row : Node) : Except PyErr Record :=
  match find row "td" (some ["event"]) with
  | none => .error .attributeError
  | some eventCell =>
    match find eventCell "a" none with
    | none => .error .attributeError
    | some eventA =>
      let eventName := get_text eventA
      match find row "td" (some ["course"]) with
      | none => .error .attributeError
      | some courseCell =>
        let courseLength := get_text courseCell
        match find row "td" (some ["time", "swimtimeImportant"]) with
        | none => .error .attributeError
        | some timeCell =>
          match convert_time (get_text timeCell) with
          | .error e => .error e
          | .ok time =>
            match (match find timeCell "a" none with
                   | none => Except.error PyErr.typeError
                   | some a => getAttr a "href") with
            | .error e => .error e
            | .ok resultUrl =>
              match parse_qs_first resultUrl "id" with
              | .error e => .error e
              | .ok idStr =>
                match pyInt idStr with
                | .error e => .error e
                | .ok resultId =>
                  match find row "td" (some ["code"]) with
                  | none => .error .attributeError
                  | some codeCell =>
                    .ok [("result_id", .int resultId), ("event_name", .str eventName),
                         ("course_length", .str courseLength), ("time", .rat time),
                         ("FINA Points", .str (get_text codeCell))]

/-- The `list_personal_bests` row loop: the first exception aborts the batch. -/
def pbLoop : List Node → Except PyErr (List Record)
  | [] => .ok []
  | row :: rest =>
    match extractPbRow row with
    | .error e => .error e
    | .ok r =>
      match pbLoop rest with
      | .error e => .error e
      | .ok tail => .ok (r :: tail)

/-- Model of `Athlete.list_personal_bests` from the parsed page onward. The
`try` block covers only the fetch and `soup.find`; when the document exists
but has no `athleteBest` table, `table` is `None` and the subsequent
`table.find_all` raises an `AttributeError` that nothing catches. -/
def list_personal_bests (soup : Option Node) : Except PyErr (List Record) :=
  match soup with
  | none => .ok []
  | some doc =>
    match find doc "table" (some ["athleteBest"]) with
    | none => .error .attributeError
    | some table =>
      pbLoop (findAllN (tagMatch "tr" (some ["athleteBest0", "athleteBest1"])) table)

/-! ## Meet.list_clubs row extraction (meet.py lines 67–90)

The same shape as `list_personal_bests`: the `try` covers only the fetch and
the table lookup, and the row loop catches nothing. -/

/-- One iteration of the `list_clubs` row loop body. -/
def extractClubRow (row : Node) : Except PyErr Record :=
  match find row "td" (some ["club"]) with
  | none => .error .attributeError
  | some clubCell =>
    match (match find clubCell "a" none with
           | none => Except.error PyErr.typeError
           | some a => getAttr a "href") with
    | .error e => .error e
    | .ok clubUrl =>
      match parse_qs_first clubUrl "clubId" with
      | .error e => .error e
      | .ok clubId =>
        match find clubCell "a" none with
        | none => .error .attributeError
        | some a2 =>
          .ok [("club_id", .str (String.mk clubId)), ("club_name", .str (get_text a2))]

/-- The `list_clubs` row loop: the first exception aborts the batch. -/
def clubLoop : List Node → Except PyErr (List Record)
  | [] => .ok []
  | row :: rest =>
    match extractClubRow row with
    | .error e => .error e
    | .ok r =>
      match clubLoop rest with
      | .error e => .error e
      | .ok tail => .ok (r :: tail)

/-- Model of `Meet.list_clubs` from the parsed page onward; a document without
a `meetSearch` table makes `table.find_all` raise an uncaught
`AttributeError`. -/
def list_clubs (soup : Option Node) : Except PyErr (List Record) :=
  match soup with
  | none => .ok []
  | some doc =>
    match find doc "table" (some ["meetSearch"]) with
    | none => .error .attributeError
    | some table =>
      clubLoop (findAllN (tagMatch "tr" (some ["meetResult0", "meetResult1"])) table)

/-! ## ScraperMixin page cache (src/swimrankingsscraper/mixins.py)

`_update_page_content` runs under `try/except requests.RequestException`:
* a connection error or a non-2xx status raises inside `get`/`raise_for_status`
  before any attribute is written, so the state is unchanged (`Response.failure`);
* a 2xx response is parsed and `page_content` and `last_updated` are written
  and `add_request` called **before** the `find('body')` emptiness check, whose
  `RequestException("Empty response")` is then caught by the same handler — so
  an empty-body response still replaces the cache (`Response.body doc` with
  `has_body doc = false`).
The handler prints and swallows the exception, so the method always returns.
`_get_page_content` decides whether to call `_update_page_content`, then
unconditionally records `last_request := params` and returns `page_content`.
The two `time.time()` reads of one call are modelled by a single `now`. The
session's request history lives in the `SessionManager` model below and is
orthogonal to this state. -/

/-- Request parameter mappings (the `params` dicts); equality is pairwise. -/
abbrev Params := List (String × String)

/-- Outcome of the network transport for one attempted request. -/
inductive Response where
  | failure
  | body (doc : Node)

/-- Cache-relevant attributes of a `ScraperMixin` instance. -/
structure MixinState where
  page_content : Option Node
  last_request : Option Params
  last_updated : Option ℚ
  update_interval : ℚ

/-- A freshly initialised mixin (`__init__` with the given `update_interval`). -/
def freshState (d : ℚ) : MixinState :=
  { page_content := none, last_request := none, last_updated := none, update_interval := d }

/-- Model of `_update_page_content` given the transport outcome of its
request attempt. -/
def update_page_content (resp : Response) (now : ℚ) (s : MixinState) : MixinState :=
  match resp with
  | .failure => s
  | .body doc => { s with page_content := some doc, last_updated := some now }

/-- The refetch condition of `_get_page_content`:
`last_updated is None or params != last_request or now - last_updated > interval`. -/
def needs_update (params : Params) (now : ℚ) (s : MixinState) : Bool :=
  match s.last_updated with
  | none => true
  | some t => decide (s.last_request ≠ some params) || decide (s.update_interval < now - t)

/-- Model of `_get_page_content`: returns the new state, whether a network
request was attempted, and the returned `page_content`. -/
def get_page_content (params : Params) (resp : Response) (now : ℚ) (s : MixinState) :
    MixinState × Bool × Option Node :=
  let doFetch := needs_update params now s
  let s1 := if doFetch then update_page_content resp now s else s
  let s2 := { s1 with last_request := some params }
  (s2, doFetch, s2.page_content)

/-! ## SessionManager rate limiting (src/swimrankingsscraper/session_manager.py)

`check_request_rate_limit` filters the history to the trailing window, and if
the remaining count reaches the limit sleeps until the oldest of them leaves
the window, then prunes the history; `valid_requests[0]` on an empty list
raises `IndexError` (reachable exactly when the configured limit is ≤ 0), and
`time.sleep` of a negative duration would raise `ValueError` (unreachable, but
modelled). The clock is explicit: the second component of the result is the
wall-clock time at which the call returns. `__init__` performs no validation
of `max_requests_per_timeframe`, so the limit is an arbitrary `Int`. -/

/-- Model of `SessionManager.check_request_rate_limit`, returning the new
request history and the clock value after any sleep. -/
def check_request_rate_limit (maxReq : Int) (maxPer : ℚ) (history : List ℚ) (now : ℚ) :
    Except PyErr (List ℚ × ℚ) :=
  let windowStart := now - maxPer
  let valid := history.filter (fun t => decide (windowStart < t))
  if maxReq ≤ (valid.length : Int) then
    match valid with
    | [] => .error .indexError
    | t0 :: _ =>
      let wait := t0 + maxPer - now
      if wait < 0 then .error .valueError
      else .ok (history.filter (fun t => decide (windowStart + wait < t)), now + wait)
  else .ok (history, now)

/-- Model of `SessionManager.add_request`. -/
def add_request (history : List ℚ) (now : ℚ) : List ℚ :=
  history ++ [now]

/-- One acquire operation as performed around each request in
`_update_page_content`: after a pre-call delay `d` the rate limit is checked
(possibly sleeping), the request itself takes `g`, and `add_request` records
the time at which the operation returns. State is (history, clock). -/
def acquire (maxReq : Int) (maxPer d g : ℚ) (st : List ℚ × ℚ) :
    Except PyErr (List ℚ × ℚ) :=
  match check_request_rate_limit maxReq maxPer st.1 (st.2 + d) with
  | .error e => .error e
  | .ok (h1, c1) => .ok (add_request h1 (c1 + g), c1 + g)

/-- A sequence of acquire operations with the given per-step delays. -/
def runAcquires (maxReq : Int) (maxPer : ℚ) : List (ℚ × ℚ) → List ℚ × ℚ → Except PyErr (List ℚ × ℚ)
  | [], st => .ok st
  | dg :: rest, st =>
    match acquire maxReq maxPer dg.1 dg.2 st with
    | .error e => .error e
    | .ok st1 => runAcquires maxReq maxPer rest st1

/-- Invariant for the rate-limit window argument: after `k` acquires whose
first record was at time `t1`, either the clock has already passed `t1 + W`,
or the history still holds all `k` recorded timestamps, sorted, starting at
`t1`, with `k` not exceeding the limit and every entry at or before the
clock. -/
def RLInv (t1 W : ℚ) (maxReq : Int) (k : Nat) (st : List ℚ × ℚ) : Prop :=
  t1 + W ≤ st.2 ∨
    (∃ hs, st.1 = t1 :: hs ∧ List.Sorted (· ≤ ·) (t1 :: hs) ∧ hs.length + 1 = k ∧
      (k : Int) ≤ maxReq ∧ ∀ t ∈ st.1, t ≤ st.2)

/-! ## Concrete document fixtures -/

/-- A well-formed page that contains none of the expected tables. -/
def noTableDoc : Node :=
  .elem "html" [] (nl [.elem "body" [] (nl [.elem "p" [] (nl [.text "nothing here"])])])

/-- A complete athlete-search row. -/
def aRow1 : Node :=
  .elem "tr" [("class", "athleteSearch0")] (nl [
    .elem "td" [("class", "name")] (nl [
      .elem "a" [("href", "/index.php?page=athleteDetail&athleteId=123")] (nl [.text "Doe, John"])]),
    .elem "td" [("class", "date")] (nl [.text " 1999 "]),
    .elem "td" [("class", "gender")] (nl [.elem "img" [("src", "images/gender1.png")] (nl [])]),
    .elem "td" [("class", "code")] (nl [.text "BEL"]),
    .elem "td" [("class", "club")] (nl [.text "Neptunus"])])

/-- An athlete-search row whose country-code cell is missing (and with no
gender image). -/
def aRow2 : Node :=
  .elem "tr" [("class", "athleteSearch1")] (nl [
    .elem "td" [("class", "name")] (nl [
      .elem "a" [("href", "/index.php?page=athleteDetail&athleteId=456")] (nl [.text "Roe, Jane"])]),
    .elem "td" [("class", "date")] (nl [.text "2001"]),
    .elem "td" [("class", "club")] (nl [.text "Delphinus"])])

/-- An athlete-search row that fails a required extraction: its name link has
no `athleteId` query parameter, so `parse_qs(...)['athleteId']` raises
`KeyError` (one of the caught kinds). -/
def aRowBad : Node :=
  .elem "tr" [("class", "athleteSearch0")] (nl [
    .elem "td" [("class", "name")] (nl [
      .elem "a" [("href", "/index.php?page=athleteDetail")] (nl [.text "Broken, Row"])])])

/-- An athlete-search document with one complete row and one row lacking the
country-code cell. -/
def searchDoc : Node :=
  .elem "html" [] (nl [.elem "body" [] (nl [
    .elem "table" [("class", "athleteSearch")] (nl [aRow1, aRow2])])])

/-- An athlete-search document whose middle row fails a required extraction. -/
def searchDocMixed : Node :=
  .elem "html" [] (nl [.elem "body" [] (nl [
    .elem "table" [("class", "athleteSearch")] (nl [aRow1, aRowBad, aRow2])])])

/-- The record extracted from `aRow1`. -/
def aRec1 : Record :=
  [("athlete_id", .int 123), ("name", .str "Doe, John"), ("birth_year", .str "1999"),
   ("gender", .str "m"), ("country_code", .str "BEL"), ("club_name", .str "Neptunus")]

/-- The record extracted from `aRow2`: `country_code` is present with an
empty-string placeholder. -/
def aRec2 : Record :=
  [("athlete_id", .int 456), ("name", .str "Roe, Jane"), ("birth_year", .str "2001"),
   ("gender", .str "f"), ("country_code", .str ""), ("club_name", .str "Delphinus")]

/-- A complete personal-best row (time 23.45 s, result id 777). -/
def pbRowGood : Node :=
  .elem "tr" [("class", "athleteBest0")] (nl [
    .elem "td" [("class", "event")] (nl [
      .elem "a" [("href", "?page=eventDetail")] (nl [.text "50m Freestyle"])]),
    .elem "td" [("class", "course")] (nl [.text "25m"]),
    .elem "td" [("class", "time")] (nl [
      .elem "a" [("href", "?id=777")] (nl [.text "23.45"])]),
    .elem "td" [("class", "code")] (nl [.text "512"])])

/-- A personal-best row whose required event cell is missing. -/
def pbRowBad : Node :=
  .elem "tr" [("class", "athleteBest1")] (nl [
    .elem "td" [("class", "course")] (nl [.text "50m"])])

/-- A personal-bests document with one complete row followed by one corrupt
row. -/
def pbDocMixed : Node :=
  .elem "html" [] (nl [.elem "body" [] (nl [
    .elem "table" [("class", "athleteBest")] (nl [pbRowGood, pbRowBad])])])

/-- A successfully fetched document (it has a `body` element). -/
def docA : Node :=
  .elem "html" [] (nl [.elem "body" [] (nl [.text "page A"])])

/-- A parsed 2xx response with no `body` element: the source's
"Empty response" transport-failure case. -/
def docNoBody : Node :=
  .elem "html" [] (nl [])

/-- A mixin state holding a previously cached document fetched at time 50 for
parameters `pA`, with a 60-second update interval. -/
def c4State : MixinState :=
  { page_content := some docA, last_request := some [("page", "a")],
    last_updated := some 50, update_interval := 60 }

/-! ## Helper lemmas about the HTML traversals -/

mutual
theorem findAllN_sat (p : Node → Bool) : ∀ (n : Node), ∀ x ∈ findAllN p n, p x = true
  | .text _, x, hx => by simp [findAllN] at hx
  | .elem _ _ cs, x, hx => findAllL_sat p cs x (by simpa [findAllN] using hx)
theorem findAllL_sat (p : Node → Bool) : ∀ (l : NodeList), ∀ x ∈ findAllL p l, p x = true
  | .nil, x, hx => by simp [findAllL] at hx
  | .cons c rest, x, hx => by
    unfold findAllL at hx
    rcases List.mem_append.mp hx with h1 | h2
    · by_cases hpc : p c = true
      · rw [if_pos hpc] at h1
        rw [List.mem_singleton.mp h1]
        exact hpc
      · rw [if_neg hpc] at h1
        exact absurd h1 (List.not_mem_nil x)
    · rcases List.mem_append.mp h2 with h3 | h4
      · exact findAllN_sat p c x h3
      · exact findAllL_sat p rest x h4
end

theorem find_sat {n : Node} {name : String} {cls : Option (List String)} {x : Node}
    (h : find n name cls = some x) : tagMatch name cls x = true :=
  findAllN_sat _ _ x (List.mem_of_mem_head? (Option.mem_def.mpr h))

theorem getAttr_keyError {name : String} {cls : Option (List String)} {x : Node} {key : String}
    {e : PyErr} (hx : tagMatch name cls x = true) (h : getAttr x key = .error e) :
    e = .keyError := by
  cases x with
  | text s => simp [tagMatch] at hx
  | elem nm attrs cs =>
    simp only [getAttr] at h
    rcases hl : attrs.lookup key with _ | v
    · simp only [hl] at h
      injection h with h
      exact h.symm
    · simp only [hl] at h
      cases h

theorem parse_qs_first_keyError {url key : String} {e : PyErr}
    (h : parse_qs_first url key = .error e) : e = .keyError := by
  simp only [parse_qs_first] at h
  rcases hf : (parseQs (urlQuery url)).find? (fun p => p.1 == key.data) with _ | p
  · simp only [hf] at h
    injection h with h
    exact h.symm
  · simp only [hf] at h
    cases h

theorem pyInt_valueError {cs : List Char} {e : PyErr} (h : pyInt cs = .error e) :
    e = .valueError := by
  simp only [pyInt] at h
  split at h <;> split at h <;>
    first
    | (injection h with h; exact h.symm)
    | cases h

theorem genderOf_keyError {row : Node} {e : PyErr}
    (h : genderOf (find row "img" none) = .error e) : e = .keyError := by
  rcases hf : find row "img" none with _ | img
  · simp [hf, genderOf] at h
  · simp only [hf, genderOf] at h
    cases ha : getAttr img "src" with
    | error e' =>
      simp only [ha] at h
      injection h with h
      exact h ▸ getAttr_keyError (find_sat hf) ha
    | ok src =>
      simp only [ha] at h
      cases h

/-- Every exception the `search_athletes` row body can raise is one of the
four kinds the surrounding `except` clause catches. -/
theorem extractSearchRow_caught {row : Node} {e : PyErr}
    (h : extractSearchRow row = .error e) : caughtInSearch e = true := by
  simp only [extractSearchRow] at h
  rcases h1 : find row "td" (some ["name"]) with _ | nameCell <;> simp only [h1] at h
  · cases h
  rcases h2 : find nameCell "a" none with _ | nameLink <;> simp only [h2] at h
  · cases h
  cases h3 : getAttr nameLink "href" with
  | error e1 =>
    simp only [h3] at h
    injection h with h
    rw [← h, getAttr_keyError (find_sat h2) h3]
    rfl
  | ok athleteUrl =>
    simp only [h3] at h
    cases h4 : parse_qs_first athleteUrl "athleteId" with
    | error e2 =>
      simp only [h4] at h
      injection h with h
      rw [← h, parse_qs_first_keyError h4]
      rfl
    | ok idStr =>
      simp only [h4] at h
      cases h5 : pyInt idStr with
      | error e3 =>
        simp only [h5] at h
        injection h with h
        rw [← h, pyInt_valueError h5]
        rfl
      | ok athleteId =>
        simp only [h5] at h
        cases h6 : genderOf (find row "img" none) with
        | error e4 =>
          simp only [h6] at h
          injection h with h
          rw [← h, genderOf_keyError h6]
          rfl
        | ok gender =>
          simp only [h6] at h
          cases h

/-- `searchLoop` keeps exactly the successfully extracted rows, in the page's
original order: no exception escapes it and a failing row removes only
itself. -/
theorem searchLoop_eq_filterMap : ∀ rows : List Node,
    searchLoop rows = .ok (rows.filterMap searchRowOk)
  | [] => rfl
  | row :: rest => by
    have ih := searchLoop_eq_filterMap rest
    cases hrow : extractSearchRow row with
    | ok o =>
      cases o with
      | none => simp [searchLoop, hrow, ih, searchRowOk, List.filterMap_cons]
      | some r => simp [searchLoop, hrow, ih, searchRowOk, List.filterMap_cons]
    | error e =>
      have hc := extractSearchRow_caught hrow
      simp [searchLoop, hrow, hc, ih, searchRowOk, List.filterMap_cons]

/-- `pbLoop` aborts on the first failing row: every already-extracted sibling
record is discarded and the exception propagates. -/
theorem pbLoop_abort : ∀ (pre : List Node) (r : Node) (post : List Node) (e : PyErr),
    (∀ x ∈ pre, (extractPbRow x).isOk = true) → extractPbRow r = .error e →
    pbLoop (pre ++ r :: post) = .error e
  | [], r, post, e, _, hr => by simp [pbLoop, hr]
  | x :: pre, r, post, e, hpre, hr => by
    have hx := hpre x (by simp)
    cases hx' : extractPbRow x with
    | error e' =>
      rw [hx'] at hx
      simp [Except.isOk, Except.toBool] at hx
    | ok rx =>
      have ih := pbLoop_abort pre r post e (fun y hy => hpre y (by simp [hy])) hr
      simp [pbLoop, hx', ih]

/-- Shape of every record `search_athletes` produces: the six keys are always
present, and the `country_code` value is the text of the code cell or the
empty string when that cell is missing. -/
theorem extractSearchRow_shape {row : Node} {r : Record}
    (h : extractSearchRow row = .ok (some r)) :
    ∃ aid nm b g cl, r = [("athlete_id", .int aid), ("name", .str nm), ("birth_year", .str b),
      ("gender", .str g), ("country_code", .str (optText (find row "td" (some ["code"])))),
      ("club_name", .str cl)] := by
  simp only [extractSearchRow] at h
  rcases h1 : find row "td" (some ["name"]) with _ | nameCell <;> simp only [h1] at h
  · cases h
  rcases h2 : find nameCell "a" none with _ | nameLink <;> simp only [h2] at h
  · cases h
  cases h3 : getAttr nameLink "href" with
  | error e1 => simp only [h3] at h; cases h
  | ok athleteUrl =>
    simp only [h3] at h
    cases h4 : parse_qs_first athleteUrl "athleteId" with
    | error e2 => simp only [h4] at h; cases h
    | ok idStr =>
      simp only [h4] at h
      cases h5 : pyInt idStr with
      | error e3 => simp only [h5] at h; cases h
      | ok athleteId =>
        simp only [h5] at h
        cases h6 : genderOf (find row "img" none) with
        | error e4 => simp only [h6] at h; cases h
        | ok gender =>
          simp only [h6] at h
          injection h with h
          injection h with h
          exact ⟨athleteId, _, _, gender, _, h.symm⟩

/-! ## Claim C1 — missing container behaviour (code bug)

The Athlete/Meet docstrings promise "In case of an error or no data, an empty
list is returned", and the spec requires "missing structure ⇒ empty result,
never an exception escaping the extraction boundary". `search_athletes`
honours this (`if not table: return []`), but in `list_personal_bests` and
`list_clubs` the `try` block ends before the row loop, so a present document
without the expected table makes `table.find_all` raise an uncaught
`AttributeError`. -/

/-- Claim C1: on a document without the expected container, the listing
operations diverge — `search_athletes` returns `[]` as claimed, but
`list_personal_bests` and `list_clubs` raise `AttributeError` out of the
extraction boundary; a missing document (fetch failure, `soup = None`) does
produce `[]` everywhere. -/
theorem c1_missing_container :
    list_personal_bests (some noTableDoc) = .error .attributeError
  ∧ list_clubs (some noTableDoc) = .error .attributeError
  ∧ search_athletes (some noTableDoc) = .ok []
  ∧ list_personal_bests none = .ok []
  ∧ list_clubs none = .ok []
  ∧ search_athletes none = .ok [] :=
  ⟨rfl, rfl, rfl, rfl, rfl, rfl⟩

/-! ## Claim C2 — per-row failure containment (corrected)

The claim holds for `search_athletes` but not for `list_personal_bests`,
whose row loop has no per-row exception handling: one corrupt row aborts the
whole batch and discards every complete sibling row. -/

/-- Claim C2 counterexample: a personal-bests document with one complete row
and one corrupt row does not return the complete sibling — the whole batch
aborts with the corrupt row's `AttributeError`. -/
theorem c2_counterexample :
    list_personal_bests (some pbDocMixed) = .error .attributeError
  ∧ (extractPbRow pbRowGood).isOk = true :=
  ⟨rfl, rfl⟩

/-- Claim C2 as amended: in `search_athletes` a row whose required field
extraction fails is discarded alone — all successfully extracted rows are
returned in original order and no exception escapes the loop; in
`list_personal_bests`, by contrast, the first failing row aborts the batch
and its exception propagates, discarding all sibling rows. -/
theorem c2_amended_rowwise :
    (∀ rows : List Node, searchLoop rows = .ok (rows.filterMap searchRowOk))
  ∧ (∀ (pre : List Node) (r : Node) (post : List Node) (e : PyErr),
      (∀ x ∈ pre, (extractPbRow x).isOk = true) → extractPbRow r = .error e →
      pbLoop (pre ++ r :: post) = .error e) :=
  ⟨searchLoop_eq_filterMap, pbLoop_abort⟩

/-- Witness for C2 (amended): concrete instantiation on the fixture rows —
the search loop keeps the two good rows around the bad one, and the
personal-bests loop aborts although its first row was complete. -/
theorem c2_amended_witness :
    searchLoop [aRow1, aRowBad, aRow2] = .ok ([aRow1, aRowBad, aRow2].filterMap searchRowOk)
  ∧ pbLoop ([pbRowGood] ++ pbRowBad :: []) = .error .attributeError :=
  ⟨c2_amended_rowwise.1 [aRow1, aRowBad, aRow2],
   c2_amended_rowwise.2 [pbRowGood] pbRowBad [] .attributeError
     (by intro x hx; rw [List.mem_singleton.mp hx]; rfl) rfl⟩

/-! ## Claim C9 — missing optional fields (corrected)

Missing optional cells do not drop the key: `search_athletes` always emits all
six keys, and a missing country-code cell yields `country_code` bound to the
empty string (`code_cell.get_text(strip=True) if code_cell else ''`). -/

/-- Claim C9 counterexample: on the two-row search fixture whose second row
has no country-code cell, the second record still carries the
`country_code` key, bound to the empty-string placeholder — not an absent
key as claimed. -/
theorem c9_counterexample :
    search_athletes (some searchDoc) = .ok [aRec1, aRec2]
  ∧ aRec2.lookup "country_code" = some (.str "") :=
  ⟨rfl, rfl⟩

/-- Claim C9 as amended: every record produced by the `search_athletes` row
body carries exactly the six fixed keys, and a row whose country-code cell is
missing yields `country_code` present with the empty-string value (all other
keys still present), never an absent key. -/
theorem c9_amended :
    (∀ (row : Node) (r : Record), extractSearchRow row = .ok (some r) →
      r.map Prod.fst = ["athlete_id", "name", "birth_year", "gender", "country_code", "club_name"])
  ∧ (∀ (row : Node) (r : Record), extractSearchRow row = .ok (some r) →
      find row "td" (some ["code"]) = none →
      r.lookup "country_code" = some (.str "")) := by
  constructor
  · intro row r h
    obtain ⟨aid, nm, b, g, cl, hr⟩ := extractSearchRow_shape h
    rw [hr]
    rfl
  · intro row r h hcode
    obtain ⟨aid, nm, b, g, cl, hr⟩ := extractSearchRow_shape h
    rw [hr, hcode]
    rfl

/-- Witness for C9 (amended): both parts applied to the fixture row without a
country-code cell. -/
theorem c9_amended_witness :
    aRec2.map Prod.fst = ["athlete_id", "name", "birth_year", "gender", "country_code", "club_name"]
  ∧ aRec2.lookup "country_code" = some (.str "") :=
  ⟨c9_amended.1 aRow2 aRec2 rfl, c9_amended.2 aRow2 aRec2 rfl rfl⟩

/-! ## Claim C3 — cache-hit behaviour of `_get_page_content` (confirmed)

Starting from a fresh mixin, a successful fetch for `p` followed by a second
call for the same `p` within the update interval performs exactly one network
request; and a call for different parameters always attempts a network
request, whatever the cache age. -/

/-- Claim C3: (i) on a fresh instance, the first call for `p` attempts the
network and, when it yields a parsed document, a second call for the same `p`
issued less than `update_interval` later does not (exactly one network call);
(ii) a call whose params differ from the previous call's always attempts a
network request, regardless of timing and cache age. -/
theorem c3_cache_behavior :
    (∀ (p : Params) (d : ℚ) (doc : Node) (t0 t1 : ℚ) (r : Response),
      t1 - t0 < d →
      (get_page_content p (.body doc) t0 (freshState d)).2.1 = true
      ∧ (get_page_content p r t1 (get_page_content p (.body doc) t0 (freshState d)).1).2.1 = false)
  ∧ (∀ (p1 p2 : Params) (r1 r2 : Response) (t1 t2 : ℚ) (s : MixinState),
      p1 ≠ p2 →
      (get_page_content p2 r2 t2 (get_page_content p1 r1 t1 s).1).2.1 = true) := by
  constructor
  · intro p d doc t0 t1 r hlt
    refine ⟨rfl, ?_⟩
    have hs1 : (get_page_content p (.body doc) t0 (freshState d)).1 =
        { page_content := some doc, last_request := some p, last_updated := some t0,
          update_interval := d } := rfl
    rw [hs1]
    simp [get_page_content, needs_update, not_lt]
    linarith
  · intro p1 p2 r1 r2 t1 t2 s hne
    have hlr : (get_page_content p1 r1 t1 s).1.last_request = some p1 := rfl
    show needs_update p2 t2 (get_page_content p1 r1 t1 s).1 = true
    unfold needs_update
    cases hu : (get_page_content p1 r1 t1 s).1.last_updated with
    | none => rfl
    | some t => simp [hlr, hne]

/-- Witness for C3 at concrete inputs (interval 60, calls at times 0 and 1,
then two distinct parameter sets). -/
theorem c3_witness :
    ((get_page_content [("a", "1")] (.body docA) 0 (freshState 60)).2.1 = true
      ∧ (get_page_content [("a", "1")] .failure 1
          (get_page_content [("a", "1")] (.body docA) 0 (freshState 60)).1).2.1 = false)
  ∧ (get_page_content [("a", "2")] .failure 1
      (get_page_content [("a", "1")] .failure 0 (freshState 60)).1).2.1 = true :=
  ⟨c3_cache_behavior.1 [("a", "1")] 60 docA 0 1 .failure (by norm_num),
   c3_cache_behavior.2 [("a", "1")] [("a", "2")] .failure .failure 0 1 (freshState 60)
     (by decide)⟩

/-! ## Claim C10 — failed fetch for new params serves the old document (confirmed)

After a successful fetch for `p1`, a failed fetch for `p2 ≠ p1` still records
`p2` as `last_request` and returns the `p1` document; a further call for `p2`
within the update interval of the `p1` fetch is then a cache hit serving the
`p1` document. -/

/-- Claim C10: the cached document served can correspond to params other than
those requested: after success for `p1` and transport failure for `p2`, the
state records `p2` but keeps and serves the `p1` document, and a subsequent
`p2` call within `update_interval` of the `p1` fetch performs no network
request and again returns the `p1` document. -/
theorem c10_wrong_params_cache :
    ∀ (p1 p2 : Params) (doc : Node) (d t0 t1 t2 : ℚ) (r3 : Response),
      p1 ≠ p2 → t2 - t0 ≤ d →
      ((get_page_content p2 .failure t1
          (get_page_content p1 (.body doc) t0 (freshState d)).1).1.last_request = some p2
      ∧ (get_page_content p2 .failure t1
          (get_page_content p1 (.body doc) t0 (freshState d)).1).2.2 = some doc)
    ∧ ((get_page_content p2 r3 t2 (get_page_content p2 .failure t1
          (get_page_content p1 (.body doc) t0 (freshState d)).1).1).2.1 = false
      ∧ (get_page_content p2 r3 t2 (get_page_content p2 .failure t1
          (get_page_content p1 (.body doc) t0 (freshState d)).1).1).2.2 = some doc) := by
  intro p1 p2 doc d t0 t1 t2 r3 hne hle
  have hs1 : (get_page_content p1 (.body doc) t0 (freshState d)).1 =
      { page_content := some doc, last_request := some p1, last_updated := some t0,
        update_interval := d } := rfl
  have hs2 : (get_page_content p2 .failure t1
      (get_page_content p1 (.body doc) t0 (freshState d)).1).1 =
      { page_content := some doc, last_request := some p2, last_updated := some t0,
        update_interval := d } := by
    rw [hs1]
    simp [get_page_content, update_page_content, needs_update]
  refine ⟨⟨by rw [hs2], by rw [hs1]; simp [get_page_content, update_page_content]⟩, ?_, ?_⟩
  · rw [hs2]
    simp [get_page_content, needs_update, not_lt]
    linarith
  · rw [hs2]
    have hnu : needs_update p2 t2
        { page_content := some doc, last_request := some p2, last_updated := some t0,
          update_interval := d } = false := by
      simp [needs_update, not_lt]
      linarith
    simp [get_page_content, hnu]

/-- Witness for C10 at concrete inputs (distinct params, times 0, 1, 2,
interval 60). -/
theorem c10_witness :
    ((get_page_content [("a", "2")] .failure 1
        (get_page_content [("a", "1")] (.body docA) 0 (freshState 60)).1).1.last_request
        = some [("a", "2")]
      ∧ (get_page_content [("a", "2")] .failure 1
          (get_page_content [("a", "1")] (.body docA) 0 (freshState 60)).1).2.2 = some docA)
    ∧ ((get_page_content [("a", "2")] .failure 2 (get_page_content [("a", "2")] .failure 1
          (get_page_content [("a", "1")] (.body docA) 0 (freshState 60)).1).1).2.1 = false
      ∧ (get_page_content [("a", "2")] .failure 2 (get_page_content [("a", "2")] .failure 1
          (get_page_content [("a", "1")] (.body docA) 0 (freshState 60)).1).1).2.2 = some docA) :=
  c10_wrong_params_cache [("a", "1")] [("a", "2")] docA 60 0 1 2 .failure
    (by decide) (by norm_num)

/-! ## Claim C4 — cache atomicity on transport failure (corrected)

The claim holds for connection errors and non-2xx statuses (the exception
fires before any attribute is written) but not for the empty/malformed-body
case: there the source parses the body, replaces `page_content`, sets
`last_updated` and records the request **before** checking `find('body')`,
so the cache is updated although the fetch is reported as failed. -/

/-- Claim C4 counterexample: a 2xx response whose parsed document has no
`body` element — the "Empty response" transport failure — replaces both the
cached document and the freshness timestamp of a previously populated
cache. -/
theorem c4_counterexample :
    has_body docNoBody = false
  ∧ has_body docA = true
  ∧ c4State.page_content = some docA
  ∧ c4State.last_updated = some 50
  ∧ (update_page_content (.body docNoBody) 100 c4State).last_updated = some 100
  ∧ (update_page_content (.body docNoBody) 100 c4State).page_content = some docNoBody :=
  ⟨rfl, rfl, rfl, rfl, rfl, rfl⟩

/-- Claim C4 as amended: on a connection error or non-2xx status the cached
document, recorded params and freshness timestamp are left exactly as they
were; but on an empty/malformed body (a parsed response without a `body`
element) the document and timestamp ARE replaced with the new body-less
document before the failure is reported. -/
theorem c4_amended :
    (∀ (now : ℚ) (s : MixinState), update_page_content .failure now s = s)
  ∧ (∀ (now : ℚ) (s : MixinState) (doc : Node), has_body doc = false →
      update_page_content (.body doc) now s
        = { s with page_content := some doc, last_updated := some now }) :=
  ⟨fun _ _ => rfl, fun _ _ _ _ => rfl⟩

/-- Witness for C4 (amended) at the concrete body-less document. -/
theorem c4_amended_witness :
    update_page_content .failure 100 c4State = c4State
  ∧ update_page_content (.body docNoBody) 100 c4State
      = { c4State with page_content := some docNoBody, last_updated := some 100 } :=
  ⟨c4_amended.1 100 c4State, c4_amended.2 100 c4State docNoBody rfl⟩

/-! ## Claim C5 — stale-on-error is unconditional, not opt-in (corrected)

No exception reaches the caller after a transport failure, but there is no
opt-in stale-on-error configuration at all: whenever a previous document is
cached, `_get_page_content` returns it after a failed refetch; `None` is
returned only when nothing was ever cached. -/

/-- Claim C5 counterexample: with a document cached 150 seconds ago (interval
60), a refetch is attempted and fails, yet the caller receives the stale
cached document rather than the claimed default "no document" signal — and
the source has no configuration surface to opt out. -/
theorem c5_counterexample :
    (get_page_content [("page", "a")] .failure 200 c4State).2.1 = true
  ∧ (get_page_content [("page", "a")] .failure 200 c4State).2.2 = some docA := by
  constructor
  · norm_num [get_page_content, needs_update, c4State]
  · norm_num [get_page_content, needs_update, update_page_content, c4State]

/-- Claim C5 as amended: after a transport failure no exception reaches the
caller and the call returns exactly the previous `page_content` — `None` (the
"no document" signal) only when nothing was ever cached, and otherwise the
stale document, unconditionally: stale-on-error is the only behaviour and
there is no opt-in. -/
theorem c5_amended :
    ∀ (p : Params) (t : ℚ) (s : MixinState),
      (get_page_content p .failure t s).2.2 = s.page_content := by
  intro p t s
  simp [get_page_content, update_page_content]

/-! ## Claim C7 — no construction-time validation of the rate limit (corrected)

`SessionManager.__init__` validates nothing, so a non-positive request limit
is accepted; the failure surfaces only inside `check_request_rate_limit`,
where `len(valid_requests) >= max_requests` holds with an empty
`valid_requests`, and `valid_requests[0]` raises `IndexError` — an unrelated
runtime error, not a configuration error. (The call does fail fast rather
than block forever, but not in the claimed way.) -/

/-- Claim C7 counterexample: with limit 0 the very first rate-limit check on
the empty request history raises `IndexError` — construction had accepted the
configuration without any validation. -/
theorem c7_counterexample :
    check_request_rate_limit 0 30 [] 0 = .error .indexError := rfl

/-- Claim C7 as amended: construction performs no validation; for every
non-positive limit, the first rate-limit check on an empty history fails fast
with `IndexError` (an unrelated runtime error raised when the empty
`valid_requests` list is indexed), not with a configuration error at
construction time. -/
theorem c7_amended :
    ∀ (m : Int), m ≤ 0 → ∀ (W now : ℚ),
      check_request_rate_limit m W [] now = .error .indexError := by
  intro m hm W now
  simp [check_request_rate_limit, hm]

/-- Witness for C7 (amended) at limit −1. -/
theorem c7_witness :
    check_request_rate_limit (-1) 30 [] 0 = .error .indexError :=
  c7_amended (-1) (by norm_num) 30 0

/-! ## Claim C6 — sliding-window rate limiting (confirmed)

With limit N ≥ 1 and window W, starting from an empty history, the (N+1)-th
acquire cannot return before W seconds after the first one returned. The
argument: as long as no sleep has occurred, the history holds all recorded
timestamps in order; the first N acquires never sleep (fewer than N entries
exist), and at the (N+1)-th check either the first timestamp has already
left the window (so W seconds have passed) or all N entries are still valid,
forcing a sleep precisely until the first timestamp leaves the window. -/

theorem check_clock_le {m : Int} {W : ℚ} {h : List ℚ} {now : ℚ} {pr : List ℚ × ℚ}
    (hc : check_request_rate_limit m W h now = .ok pr) : now ≤ pr.2 := by
  simp only [check_request_rate_limit] at hc
  split at hc
  · split at hc
    · cases hc
    · split at hc
      · cases hc
      · next hwait =>
        injection hc with hc
        rw [← hc]
        simp only
        linarith [not_lt.mp hwait]
  · injection hc with hc
    rw [← hc]

theorem acquire_clock_le {m : Int} {W d g : ℚ} (hd : 0 ≤ d) (hg : 0 ≤ g)
    {st st' : List ℚ × ℚ} (ha : acquire m W d g st = .ok st') : st.2 ≤ st'.2 := by
  simp only [acquire] at ha
  cases hc : check_request_rate_limit m W st.1 (st.2 + d) with
  | error e => simp only [hc] at ha; cases ha
  | ok pr =>
    obtain ⟨hh, cc⟩ := pr
    have h1 := check_clock_le hc
    simp only [hc] at ha
    injection ha with ha
    rw [← ha]
    simp only at h1 ⊢
    linarith

/-- Outcome analysis of one rate-limit check: either the window count is
below the limit and nothing changes (no sleep), or the limit is reached and
the call returns exactly when the oldest in-window timestamp leaves the
window. -/
theorem check_cases {m : Int} {W : ℚ} {h : List ℚ} {now : ℚ} {pr : List ℚ × ℚ}
    (hc : check_request_rate_limit m W h now = .ok pr) :
    (¬ m ≤ ((h.filter (fun t => decide (now - W < t))).length : Int) ∧ pr = (h, now))
    ∨ (∃ t0 tl, h.filter (fun t => decide (now - W < t)) = t0 :: tl
        ∧ now - W < t0 ∧ pr.2 = t0 + W) := by
  simp only [check_request_rate_limit] at hc
  rcases hv : h.filter (fun t => decide (now - W < t)) with _ | ⟨t0, tl⟩ <;>
    simp only [hv] at hc
  · split at hc
    · cases hc
    · next hcond =>
      injection hc with hc
      exact Or.inl ⟨hcond, hc.symm⟩
  · split at hc
    · next hcond =>
      split at hc
      · cases hc
      · next hwait =>
        injection hc with hc
        refine Or.inr ⟨t0, tl, rfl, ?_, ?_⟩
        · have hmem : t0 ∈ h.filter (fun t => decide (now - W < t)) := by
            rw [hv]
            exact List.mem_cons_self _ _
          exact of_decide_eq_true (List.mem_filter.mp hmem).2
        · rw [← hc]
          simp only
          ring
    · next hcond =>
      injection hc with hc
      exact Or.inl ⟨hcond, hc.symm⟩

theorem rlinv_step {t1 W : ℚ} {m : Int} {k : Nat} {d g : ℚ} (hd : 0 ≤ d) (hg : 0 ≤ g)
    {st st' : List ℚ × ℚ} (ha : acquire m W d g st = .ok st')
    (hinv : RLInv t1 W m k st) : RLInv t1 W m (k + 1) st' := by
  rcases hinv with hleft | ⟨hs, hst1, hsorted, hlen, hkm, hbound⟩
  · exact Or.inl (le_trans hleft (acquire_clock_le hd hg ha))
  · simp only [acquire] at ha
    cases hc : check_request_rate_limit m W st.1 (st.2 + d) with
    | error e => simp only [hc] at ha; cases ha
    | ok pr =>
      obtain ⟨hh, cc⟩ := pr
      simp only [hc] at ha
      injection ha with ha
      have hbound1 : t1 ≤ st.2 := hbound t1 (by rw [hst1]; exact List.mem_cons_self _ _)
      rcases check_cases hc with ⟨hnslp, hpr⟩ | ⟨t0, tl, hvfil, ht0win, hc2⟩
      · -- no sleep: the history is returned unchanged and the clock did not move
        have hhh : hh = st.1 := congrArg Prod.fst hpr
        have hcc : cc = st.2 + d := congrArg Prod.snd hpr
        by_cases hwin : st.2 + d - W < t1
        · -- the whole (sorted) history is still inside the window
          have hall : ∀ t ∈ st.1, decide (st.2 + d - W < t) = true := by
            intro t ht
            rw [hst1] at ht
            rcases List.mem_cons.mp ht with rfl | htl
            · exact decide_eq_true hwin
            · have := (List.sorted_cons.mp hsorted).1 t htl
              exact decide_eq_true (by linarith)
          have hfilter : st.1.filter (fun t => decide (st.2 + d - W < t)) = st.1 :=
            List.filter_eq_self.mpr hall
          rw [hfilter, hst1] at hnslp
          refine Or.inr ⟨hs ++ [cc + g], ?_, ?_, ?_, ?_, ?_⟩
          · rw [← ha]
            simp only [add_request, hhh, hst1]
            rfl
          · rw [List.sorted_cons]
            constructor
            · intro b hb
              rcases List.mem_append.mp hb with hin | hnew
              · exact (List.sorted_cons.mp hsorted).1 b hin
              · rw [List.mem_singleton.mp hnew, hcc]
                linarith
            · rw [List.Sorted, List.pairwise_append]
              refine ⟨(List.sorted_cons.mp hsorted).2, List.sorted_singleton _, ?_⟩
              intro a hain b hbin
              rw [List.mem_singleton.mp hbin, hcc]
              have : a ∈ st.1 := by
                rw [hst1]
                exact List.mem_cons_of_mem _ hain
              have := hbound a this
              linarith
          · simp only [List.length_append, List.length_singleton]
            omega
          · -- k + 1 ≤ m from ¬ m ≤ k
            simp only [List.length_cons] at hnslp
            have hlen2 : hs.length + 1 = k := hlen
            omega
          · intro t ht
            rw [← ha] at ht ⊢
            simp only [add_request, hhh, hst1] at ht
            simp only
            rcases List.mem_append.mp ht with hin | hnew
            · have : t ∈ st.1 := by
                rw [hst1]
                exact hin
              have := hbound t this
              rw [hcc]
              linarith
            · rw [List.mem_singleton.mp hnew]
        · -- the first timestamp already left the window: W seconds have passed
          refine Or.inl ?_
          have ht1 : t1 ≤ st.2 + d - W := not_lt.mp hwin
          rw [← ha]
          simp only
          rw [hcc]
          linarith
      · -- sleep: the clock advances to t0 + W with t0 at least t1
        refine Or.inl ?_
        have ht1t0 : t1 ≤ t0 := by
          by_cases hwin : st.2 + d - W < t1
          · rw [hst1, List.filter_cons, if_pos (decide_eq_true hwin)] at hvfil
            injection hvfil with h1 h2
            rw [h1]
          · -- t1 out of window, yet t0 is in the window and t0 ∈ st.1
            have hmem : t0 ∈ st.1.filter (fun t => decide (st.2 + d - W < t)) := by
              rw [hvfil]
              exact List.mem_cons_self _ _
            have ht0in : t0 ∈ st.1 := List.mem_of_mem_filter hmem
            rw [hst1] at ht0in
            rcases List.mem_cons.mp ht0in with rfl | htl
            · rfl
            · exact (List.sorted_cons.mp hsorted).1 t0 htl
        have hcc2 : cc = t0 + W := hc2
        rw [← ha]
        simp only
        linarith

theorem rlinv_run {t1 W : ℚ} {m : Int} :
    ∀ (l : List (ℚ × ℚ)) {k : Nat} {st st' : List ℚ × ℚ},
      (∀ dg ∈ l, 0 ≤ dg.1 ∧ 0 ≤ dg.2) → runAcquires m W l st = .ok st' →
      RLInv t1 W m k st → RLInv t1 W m (k + l.length) st'
  | [], k, st, st', _, hr, hinv => by
    simp only [runAcquires] at hr
    injection hr with hr
    simpa [hr] using hinv
  | dg :: rest, k, st, st', hpos, hr, hinv => by
    simp only [runAcquires] at hr
    cases hastep : acquire m W dg.1 dg.2 st with
    | error e => simp only [hastep] at hr; cases hr
    | ok st1 =>
      simp only [hastep] at hr
      have h1 := rlinv_step (hpos dg (by simp)).1 (hpos dg (by simp)).2 hastep hinv
      have h2 := rlinv_run rest (fun x hx => hpos x (by simp [hx])) hr h1
      have hcnt : k + 1 + rest.length = k + (dg :: rest).length := by
        simp only [List.length_cons]
        omega
      exact hcnt ▸ h2

/-- Claim C6: with limit `N ≥ 1` and window `W > 0`, starting from an empty
request history, an execution of `N + 1` acquire operations (arbitrary
non-negative inter-call delays `d` and request durations `g`) returns from
the last acquire no earlier than `W` seconds after the first acquire
returned. -/
theorem c6_rate_limiter (N : ℕ) (hN : 1 ≤ N) (W : ℚ) (hW : 0 < W)
    (t0 d1 g1 : ℚ) (hd1 : 0 ≤ d1) (hg1 : 0 ≤ g1)
    (rest : List (ℚ × ℚ)) (hlen : rest.length = N)
    (hrest : ∀ dg ∈ rest, 0 ≤ dg.1 ∧ 0 ≤ dg.2)
    (st1 stF : List ℚ × ℚ)
    (h1 : acquire (N : Int) W d1 g1 ([], t0) = .ok st1)
    (hF : runAcquires (N : Int) W rest st1 = .ok stF) :
    st1.2 + W ≤ stF.2 := by
  have hnofill : ¬ ((N : Int) ≤ (((([] : List ℚ).filter
      (fun t => decide (t0 + d1 - W < t)))).length : Int)) := by
    simp
    omega
  simp only [acquire, check_request_rate_limit] at h1
  rw [if_neg hnofill] at h1
  simp only [add_request, List.nil_append] at h1
  injection h1 with h1
  have hst1 : st1 = ([t0 + d1 + g1], t0 + d1 + g1) := by
    rw [← h1]
  have hinv1 : RLInv (t0 + d1 + g1) W (N : Int) 1 st1 := by
    refine Or.inr ⟨[], ?_, List.sorted_singleton _, rfl, ?_, ?_⟩
    · rw [hst1]
    · exact_mod_cast hN
    · intro t ht
      rw [hst1] at ht ⊢
      rw [List.mem_singleton.mp ht]
  have hrun := rlinv_run rest hrest hF hinv1
  rw [hlen] at hrun
  rcases hrun with hleft | ⟨hs, _, _, _, hkm, _⟩
  · rw [hst1]
    simpa [hst1] using hleft
  · exfalso
    have : ((1 + N : Nat) : Int) ≤ (N : Int) := hkm
    push_cast at this
    omega

/-- Witness for C6: limit 1, window 30, both acquires immediate — the second
acquire returns at time 30, exactly one window after the first returned at
time 0. -/
theorem c6_witness :
    acquire ((1 : ℕ) : Int) 30 0 0 ([], 0) = .ok ([0], 0)
  ∧ runAcquires ((1 : ℕ) : Int) 30 [(0, 0)] ([0], 0) = .ok ([30], 30)
  ∧ (([(0 : ℚ)], (0 : ℚ)).2 + 30 ≤ ([(30 : ℚ)], (30 : ℚ)).2) := by
  have ha : acquire ((1 : ℕ) : Int) 30 0 0 ([], 0) = .ok ([0], 0) := by
    norm_num [acquire, check_request_rate_limit, add_request]
  have hb : runAcquires ((1 : ℕ) : Int) 30 [(0, 0)] ([0], 0) = .ok ([30], 30) := by
    norm_num [runAcquires, acquire, check_request_rate_limit, add_request]
  exact ⟨ha, hb,
    c6_rate_limiter 1 le_rfl 30 (by norm_num) 0 0 0 le_rfl le_rfl [(0, 0)] rfl
      (by norm_num) ([0], 0) ([30], 30) ha hb⟩

/-! ## Claim C8 — convert_time round trip (confirmed)

The three concrete examples evaluate as claimed, and the general
`[[H:]M:]S.ms` shapes (with an optional trailing manual-timing marker `M`)
convert to `hours*3600 + minutes*60 + seconds + millis/1000`; a colon-free
string is parsed as seconds-only. -/

theorem digitChar_isDigit : ∀ d : Nat, (digitChar d).isDigit = true
  | 0 | 1 | 2 | 3 | 4 | 5 | 6 | 7 | 8 => by decide
  | _ + 9 => rfl

theorem digitChar_ne {d : Nat} {c : Char} (hc : c.isDigit = false) : digitChar d ≠ c := by
  intro he
  have hd := digitChar_isDigit d
  rw [he, hc] at hd
  cases hd

theorem digitVal_digitChar : ∀ {d : Nat}, d < 10 → digitVal (digitChar d) = d := by
  intro d hd
  interval_cases d <;> decide

theorem mem_twoDigits {n : Nat} {c : Char} (h : c ∈ twoDigits n) : c.isDigit = true := by
  unfold twoDigits at h
  split at h <;> simp at h
  · rw [h]
    exact digitChar_isDigit n
  · rcases h with rfl | rfl <;> exact digitChar_isDigit _

theorem mem_pad2 {n : Nat} {c : Char} (h : c ∈ pad2 n) : c.isDigit = true := by
  simp [pad2] at h
  rcases h with rfl | rfl <;> exact digitChar_isDigit _

theorem mem_pad3 {n : Nat} {c : Char} (h : c ∈ pad3 n) : c.isDigit = true := by
  simp [pad3] at h
  rcases h with rfl | rfl | rfl <;> exact digitChar_isDigit _

theorem splitOnChar_not_mem {sep : Char} : ∀ (cs : List Char), sep ∉ cs →
    splitOnChar sep cs = [cs]
  | [], _ => rfl
  | c :: rest, h => by
    have hne : ¬ (c = sep) := by
      intro he
      exact h (by rw [he]; exact List.mem_cons_self _ _)
    have ih := splitOnChar_not_mem rest (fun hr => h (List.mem_cons_of_mem _ hr))
    simp only [splitOnChar, ih, if_neg hne]

theorem splitOnChar_append {sep : Char} : ∀ (xs ys : List Char), sep ∉ xs →
    splitOnChar sep (xs ++ sep :: ys) = xs :: splitOnChar sep ys
  | [], ys, _ => by simp [splitOnChar]
  | x :: xs, ys, h => by
    have hne : ¬ (x = sep) := by
      intro he
      exact h (by rw [he]; exact List.mem_cons_self _ _)
    have ih := splitOnChar_append xs ys (fun hr => h (List.mem_cons_of_mem _ hr))
    show splitOnChar sep (x :: (xs ++ sep :: ys)) = (x :: xs) :: splitOnChar sep ys
    simp only [splitOnChar, List.append_eq]
    rw [if_neg hne, ih]

theorem not_mem_of_all_digits {c : Char} {l : List Char} (hc : c.isDigit = false)
    (hl : ∀ x ∈ l, x.isDigit = true) : c ∉ l := by
  intro hmem
  have := hl c hmem
  rw [hc] at this
  cases this

theorem colon_not_mem_secpart (s f : Nat) : ':' ∉ pad2 s ++ '.' :: pad3 f := by
  intro hmem
  rcases List.mem_append.mp hmem with h1 | h2
  · exact absurd (mem_pad2 h1) (by decide)
  · rcases List.mem_cons.mp h2 with he | h3
    · cases he
    · exact absurd (mem_pad3 h3) (by decide)

theorem parseNum_twoDigits {n maxVal : Nat} (h100 : n < 100) (hmax : n ≤ maxVal) :
    parseNum (twoDigits n) 2 maxVal = some n := by
  by_cases h10 : n < 10
  · simp only [twoDigits, if_pos h10, parseNum, digitsVal, List.foldl, digitChar_isDigit,
      List.all_cons, List.all_nil, Bool.and_true, Bool.not_true, List.length_cons,
      List.length_nil]
    simp [digitVal_digitChar h10, hmax]
  · have hq : n / 10 < 10 := by omega
    have hr : n % 10 < 10 := by omega
    simp only [twoDigits, if_neg h10, parseNum, digitsVal, List.foldl, digitChar_isDigit,
      List.all_cons, List.all_nil, Bool.and_true, Bool.not_true, List.length_cons,
      List.length_nil]
    simp [digitVal_digitChar hq, digitVal_digitChar hr]
    have hv : n / 10 * 10 + n % 10 = n := by omega
    rw [hv]
    simp [hmax]

theorem parseNum_pad2 {n maxVal : Nat} (h100 : n < 100) (hmax : n ≤ maxVal) :
    parseNum (pad2 n) 2 maxVal = some n := by
  have hq : n / 10 < 10 := by omega
  have hr : n % 10 < 10 := by omega
  simp only [pad2, parseNum, digitsVal, List.foldl, digitChar_isDigit, List.all_cons,
    List.all_nil, Bool.and_true, Bool.not_true, List.length_cons, List.length_nil]
  simp [digitVal_digitChar hq, digitVal_digitChar hr]
  have hv : n / 10 * 10 + n % 10 = n := by omega
  rw [hv]
  simp [hmax]

theorem parseNum_pad3 {n maxVal : Nat} (h1000 : n < 1000) (hmax : n ≤ maxVal) :
    parseNum (pad3 n) 6 maxVal = some n := by
  have h1 : n / 100 < 10 := by omega
  have h2 : n / 10 % 10 < 10 := by omega
  have h3 : n % 10 < 10 := by omega
  simp only [pad3, parseNum, digitsVal, List.foldl, digitChar_isDigit, List.all_cons,
    List.all_nil, Bool.and_true, Bool.not_true, List.length_cons, List.length_nil]
  simp [digitVal_digitChar h1, digitVal_digitChar h2, digitVal_digitChar h3]
  have hv : (n / 100 * 10 + n / 10 % 10) * 10 + n % 10 = n := by omega
  rw [hv]
  simp [hmax]

theorem secFracMicros_render {s f : Nat} (hs : s ≤ 61) (hf : f ≤ 999) :
    secFracMicros (pad2 s ++ '.' :: pad3 f) = .ok (s * 1000000 + f * 1000) := by
  have hdot2 : '.' ∉ pad2 s :=
    not_mem_of_all_digits (by decide) (fun x hx => mem_pad2 hx)
  have hdot3 : '.' ∉ pad3 f :=
    not_mem_of_all_digits (by decide) (fun x hx => mem_pad3 hx)
  have hsplit : splitOnChar '.' (pad2 s ++ '.' :: pad3 f) = [pad2 s, pad3 f] := by
    rw [splitOnChar_append _ _ hdot2, splitOnChar_not_mem _ hdot3]
  simp only [secFracMicros, hsplit]
  rw [parseNum_pad2 (by omega) hs, parseNum_pad3 (by omega) (by omega)]
  rfl

theorem count_colon_secpart (s f : Nat) : (pad2 s ++ '.' :: pad3 f).count ':' = 0 :=
  List.count_eq_zero.mpr (colon_not_mem_secpart s f)

theorem timeBody_renderHMS {h m s f : Nat} (hh : h ≤ 23) (hm : m ≤ 59) (hs : s ≤ 59)
    (hf : f ≤ 999) :
    timeBody (renderHMS h m s f) = .ok ((h * 3600 + m * 60) * 1000000 + (s * 1000000 + f * 1000)) := by
  have hcolH : ':' ∉ twoDigits h :=
    not_mem_of_all_digits (by decide) (fun x hx => mem_twoDigits hx)
  have hcolM : ':' ∉ pad2 m :=
    not_mem_of_all_digits (by decide) (fun x hx => mem_pad2 hx)
  have hc1 : List.count ':' (pad2 s) = 0 :=
    List.count_eq_zero.mpr (not_mem_of_all_digits (by decide) fun x hx => mem_pad2 hx)
  have hc2 : List.count ':' ('.' :: pad3 f) = 0 := List.count_eq_zero.mpr (by
    intro hmem
    rcases List.mem_cons.mp hmem with he | h3
    · cases he
    · exact absurd (mem_pad3 h3) (by decide))
  have hcount : (renderHMS h m s f).count ':' = 2 := by
    simp only [renderHMS, List.count_append, List.count_cons_self, hc1, hc2,
      List.count_eq_zero.mpr hcolH, List.count_eq_zero.mpr hcolM]
  have hsplit : splitOnChar ':' (renderHMS h m s f)
      = [twoDigits h, pad2 m, pad2 s ++ '.' :: pad3 f] := by
    show splitOnChar ':' (twoDigits h ++ ':' :: (pad2 m ++ ':' :: (pad2 s ++ '.' :: pad3 f))) = _
    rw [splitOnChar_append _ _ hcolH, splitOnChar_append _ _ hcolM,
      splitOnChar_not_mem _ (colon_not_mem_secpart s f)]
  simp only [timeBody, hcount, hsplit]
  rw [parseNum_twoDigits (by omega) hh, parseNum_pad2 (by omega) hm,
    secFracMicros_render (by omega) hf]

theorem timeBody_renderMS {m s f : Nat} (hm : m ≤ 59) (hs : s ≤ 59) (hf : f ≤ 999) :
    timeBody (renderMS m s f) = .ok (m * 60 * 1000000 + (s * 1000000 + f * 1000)) := by
  have hcolM : ':' ∉ pad2 m :=
    not_mem_of_all_digits (by decide) (fun x hx => mem_pad2 hx)
  have hc1 : List.count ':' (pad2 s) = 0 :=
    List.count_eq_zero.mpr (not_mem_of_all_digits (by decide) fun x hx => mem_pad2 hx)
  have hc2 : List.count ':' ('.' :: pad3 f) = 0 := List.count_eq_zero.mpr (by
    intro hmem
    rcases List.mem_cons.mp hmem with he | h3
    · cases he
    · exact absurd (mem_pad3 h3) (by decide))
  have hcount : (renderMS m s f).count ':' = 1 := by
    simp only [renderMS, List.count_append, List.count_cons_self, hc1, hc2,
      List.count_eq_zero.mpr hcolM]
  have hsplit : splitOnChar ':' (renderMS m s f) = [pad2 m, pad2 s ++ '.' :: pad3 f] := by
    show splitOnChar ':' (pad2 m ++ ':' :: (pad2 s ++ '.' :: pad3 f)) = _
    rw [splitOnChar_append _ _ hcolM, splitOnChar_not_mem _ (colon_not_mem_secpart s f)]
  simp only [timeBody, hcount, hsplit]
  rw [parseNum_pad2 (by omega) hm, secFracMicros_render (by omega) hf]

theorem timeBody_renderS {s f : Nat} (hs : s ≤ 59) (hf : f ≤ 999) :
    timeBody (renderS s f) = .ok (s * 1000000 + f * 1000) := by
  have hcount : (renderS s f).count ':' = 0 := count_colon_secpart s f
  simp only [timeBody, hcount]
  exact secFracMicros_render (by omega) hf

theorem renderHMS_concat (h m s f : Nat) :
    renderHMS h m s f = (twoDigits h ++ ':' :: (pad2 m ++ ':' :: (pad2 s ++ '.' ::
      [digitChar (f / 100), digitChar (f / 10 % 10)]))) ++ [digitChar (f % 10)] := by
  simp [renderHMS, pad3]

theorem renderMS_concat (m s f : Nat) :
    renderMS m s f = (pad2 m ++ ':' :: (pad2 s ++ '.' ::
      [digitChar (f / 100), digitChar (f / 10 % 10)])) ++ [digitChar (f % 10)] := by
  simp [renderMS, pad3]

theorem renderS_concat (s f : Nat) :
    renderS s f = (pad2 s ++ '.' :: [digitChar (f / 100), digitChar (f / 10 % 10)])
      ++ [digitChar (f % 10)] := by
  simp [renderS, pad3]

theorem timeMicros_of_digit_last {cs : List Char} {pre : List Char} {d : Nat}
    (hre : cs = pre ++ [digitChar d]) :
    timeMicros cs = timeBody cs := by
  rw [hre]
  simp only [timeMicros, List.getLast?_concat]
  rw [if_neg (digitChar_ne (by decide))]

theorem timeMicros_marker {cs : List Char} :
    timeMicros (cs ++ ['M']) = timeBody cs := by
  simp only [timeMicros, List.getLast?_concat]
  rw [if_pos trivial]
  congr 1
  simp

theorem convertTimeL_renderHMS {h m s f : Nat} (hh : h ≤ 23) (hm : m ≤ 59) (hs : s ≤ 59)
    (hf : f ≤ 999) :
    convertTimeL (renderHMS h m s f) = .ok ((h : ℚ) * 3600 + m * 60 + s + (f : ℚ) / 1000)
    ∧ convertTimeL (renderHMS h m s f ++ ['M'])
        = .ok ((h : ℚ) * 3600 + m * 60 + s + (f : ℚ) / 1000) := by
  have hval : ((((h * 3600 + m * 60) * 1000000 + (s * 1000000 + f * 1000) : ℕ) : ℚ)) / 1000000
      = (h : ℚ) * 3600 + m * 60 + s + (f : ℚ) / 1000 := by
    push_cast
    field_simp
    ring
  constructor
  · simp only [convertTimeL, timeMicros_of_digit_last (renderHMS_concat h m s f),
      timeBody_renderHMS hh hm hs hf]
    rw [hval]
  · simp only [convertTimeL, timeMicros_marker, timeBody_renderHMS hh hm hs hf]
    rw [hval]

theorem convertTimeL_renderMS {m s f : Nat} (hm : m ≤ 59) (hs : s ≤ 59) (hf : f ≤ 999) :
    convertTimeL (renderMS m s f) = .ok ((m : ℚ) * 60 + s + (f : ℚ) / 1000) := by
  have hval : (((m * 60 * 1000000 + (s * 1000000 + f * 1000) : ℕ) : ℚ)) / 1000000
      = (m : ℚ) * 60 + s + (f : ℚ) / 1000 := by
    push_cast
    field_simp
    ring
  simp only [convertTimeL, timeMicros_of_digit_last (renderMS_concat m s f),
    timeBody_renderMS hm hs hf]
  rw [hval]

theorem convertTimeL_renderS {s f : Nat} (hs : s ≤ 59) (hf : f ≤ 999) :
    convertTimeL (renderS s f) = .ok ((s : ℚ) + (f : ℚ) / 1000) := by
  have hval : (((s * 1000000 + f * 1000 : ℕ) : ℚ)) / 1000000
      = (s : ℚ) + (f : ℚ) / 1000 := by
    push_cast
    field_simp
    ring
  simp only [convertTimeL, timeMicros_of_digit_last (renderS_concat s f),
    timeBody_renderS hs hf]
  rw [hval]

/-- Claim C8: the three concrete conversions of the spec hold, and in general
a string of the form `[[H:]M:]S.ms` (optionally suffixed with the
manual-timing marker `M`, which is stripped before parsing) converts to
`hours*3600 + minutes*60 + seconds + millis/1000`; a colon-free string is
parsed as seconds-only. -/
theorem c8_convert_time :
    (convert_time "1:02:03.450" = .ok (372345 / 100))
  ∧ (convert_time "23.45" = .ok (2345 / 100))
  ∧ (convert_time "02:03.45M" = .ok (12345 / 100))
  ∧ (∀ h m s f : ℕ, h ≤ 23 → m ≤ 59 → s ≤ 59 → f ≤ 999 →
      convertTimeL (renderHMS h m s f) = .ok ((h : ℚ) * 3600 + m * 60 + s + (f : ℚ) / 1000)
      ∧ convertTimeL (renderHMS h m s f ++ ['M'])
          = .ok ((h : ℚ) * 3600 + m * 60 + s + (f : ℚ) / 1000))
  ∧ (∀ m s f : ℕ, m ≤ 59 → s ≤ 59 → f ≤ 999 →
      convertTimeL (renderMS m s f) = .ok ((m : ℚ) * 60 + s + (f : ℚ) / 1000))
  ∧ (∀ s f : ℕ, s ≤ 59 → f ≤ 999 →
      (renderS s f).count ':' = 0
      ∧ convertTimeL (renderS s f) = .ok ((s : ℚ) + (f : ℚ) / 1000)) := by
  refine ⟨?_, ?_, ?_, ?_, ?_, ?_⟩
  · have ht : timeMicros "1:02:03.450".data = .ok 3723450000 := rfl
    simp only [convert_time, convertTimeL, ht]
    norm_num
  · have ht : timeMicros "23.45".data = .ok 23450000 := rfl
    simp only [convert_time, convertTimeL, ht]
    norm_num
  · have ht : timeMicros "02:03.45M".data = .ok 123450000 := rfl
    simp only [convert_time, convertTimeL, ht]
    norm_num
  · intro h m s f hh hm hs hf
    exact convertTimeL_renderHMS hh hm hs hf
  · intro m s f hm hs hf
    exact convertTimeL_renderMS hm hs hf
  · intro s f hs hf
    exact ⟨count_colon_secpart s f, convertTimeL_renderS hs hf⟩

/-- Witness for C8: the general round trip applied at 1:02:03.450 (with and
without the manual-timing marker). -/
theorem c8_witness :
    convertTimeL (renderHMS 1 2 3 450) = .ok ((1 : ℚ) * 3600 + 2 * 60 + 3 + (450 : ℚ) / 1000)
  ∧ convertTimeL (renderHMS 1 2 3 450 ++ ['M'])
      = .ok ((1 : ℚ) * 3600 + 2 * 60 + 3 + (450 : ℚ) / 1000) :=
  c8_convert_time.2.2.2.1 1 2 3 450 (by decide) (by decide) (by decide) (by decide)

end Swim
